import Mathlib

/-!
Verification of the amortization and cost-projection engine of the
dubai-mortgage-calculator repository.

The Python source (src/utils/mortgage_math.py and the year-by-year
simulation loop of src/components/comparison.py) is shallowly embedded
here.  Python floats are modelled by exact rationals (ℚ); a Python
ZeroDivisionError is modelled by `Option.none`.  Every call site of
`monthly_payment` in the repository passes a whole number of months
(`years * 12` is an integer), so the embedding uses the numerator of
`years * 12` as the integer exponent of the annuity formula.
-/

namespace MortgageCalc

/-- Sum of the first `n` powers of `x` : `1 + x + ... + x^(n-1)`.
Helper used to give closed forms for amortization balances. -/
def geomSum (x : ℚ) : ℕ → ℚ
  | 0 => 0
  | n + 1 => geomSum x n + x ^ n

/-- Embedding of `monthly_payment(principal, annual_rate, years)` from
src/utils/mortgage_math.py lines 3-9.  The zero-rate branch returns
`principal / months`; the general branch returns
`principal * monthly_rate / (1 - (1 + monthly_rate) ** -months)`.
Python raises ZeroDivisionError exactly when the corresponding divisor
is zero; those runs are modelled by `none`. -/
def monthly_payment (principal annual_rate years : ℚ) : Option ℚ :=
  let monthly_rate : ℚ := annual_rate / 100 / 12
  let months : ℚ := years * 12
  if monthly_rate = 0 then
    if months = 0 then none else some (principal / months)
  else
    let denom : ℚ := 1 - (1 + monthly_rate) ^ (-months.num)
    if denom = 0 then none else some (principal * monthly_rate / denom)

/-- One row of the amortization schedule:
`[year, month, payment, principal, interest, balance]` as appended by
`generate_amortization`. -/
structure Row where
  year : ℕ
  month : ℕ
  payment : ℚ
  principal : ℚ
  interest : ℚ
  balance : ℚ
  deriving Repr, DecidableEq

def dummyRow : Row := ⟨0, 0, 0, 0, 0, 0⟩

/-- The fixed-rate phase loop of `generate_amortization`
(src/utils/mortgage_math.py lines 21-27): `count` iterations, each doing
`interest = balance * monthly_rate`, `principal = payment - interest`,
`balance -= principal`, appending a row.  Returns the rows and the
balance left at the end of the phase. -/
def fixedSteps (monthly_rate payment : ℚ) : ℕ → ℕ → ℚ → List Row × ℚ
  | 0, _, balance => ([], balance)
  | count + 1, month, balance =>
    let interest := balance * monthly_rate
    let principal := payment - interest
    let balance2 := balance - principal
    let rest := fixedSteps monthly_rate payment count (month + 1) balance2
    (⟨(month - 1) / 12 + 1, month, payment, principal, interest, balance2⟩ :: rest.1, rest.2)

/-- The floating-rate phase loop of `generate_amortization`
(src/utils/mortgage_math.py lines 30-41), including the clamp of the
final principal (`if balance - principal < 0`) and the early exit
(`if balance <= 0: break`).  `payment` is the mutable
`monthly_floating` variable. -/
def floatSteps (monthly_rate : ℚ) : ℕ → ℕ → ℚ → ℚ → List Row
  | 0, _, _, _ => []
  | count + 1, month, payment, balance =>
    let interest := balance * monthly_rate
    let principal0 := payment - interest
    let principal := if balance - principal0 < 0 then balance else principal0
    let payment2 := if balance - principal0 < 0 then balance + interest else payment
    let balance2 := balance - principal
    let row : Row := ⟨(month - 1) / 12 + 1, month, payment2, principal, interest, balance2⟩
    if balance2 ≤ 0 then [row]
    else row :: floatSteps monthly_rate count (month + 1) payment2 balance2

/-- Embedding of `generate_amortization(loan, fixed_years, mortgage_years,
fixed_rate, floating_rate)` from src/utils/mortgage_math.py lines 11-46,
returning the monthly rows (the pandas yearly group-by of the same rows is
presentation-side aggregation).  A ZeroDivisionError raised by either
`monthly_payment` call is `none`. -/
def generate_amortization (loan : ℚ) (fixed_years mortgage_years : ℕ)
    (fixed_rate floating_rate : ℚ) : Option (List Row) :=
  let total_months := mortgage_years * 12
  let fixed_months := fixed_years * 12
  let floating_months : ℤ := (total_months : ℤ) - (fixed_months : ℤ)
  match monthly_payment loan fixed_rate (mortgage_years : ℚ) with
  | none => none
  | some monthly_fixed =>
    let fp := fixedSteps (fixed_rate / 100 / 12) monthly_fixed fixed_months 1 loan
    match monthly_payment fp.2 floating_rate ((floating_months : ℚ) / 12) with
    | none => none
    | some monthly_floating =>
      some (fp.1 ++ floatSteps (floating_rate / 100 / 12) (total_months - fixed_months)
        (fixed_months + 1) monthly_floating fp.2)

/-- Sum of the principal portions of a schedule. -/
def sumPrincipal (l : List Row) : ℚ := (l.map Row.principal).sum

/-- Balance recorded in the last row of `l`, or `b` if `l` is empty. -/
def lastBalance (b : ℚ) : List Row → ℚ
  | [] => b
  | r :: l => lastBalance r.balance l

/-- Result dictionary of `calculate_mortgage_costs`. -/
structure MortgageCosts where
  monthly_fixed : ℚ
  monthly_floating : ℚ
  annual_service_charge : ℚ
  total_service_charge : ℚ
  total_payment : ℚ
  total_interest : ℚ
  total_home_insurance : ℚ
  total_life_insurance : ℚ
  deriving Repr, DecidableEq

/-- Embedding of `calculate_mortgage_costs` from
src/utils/mortgage_math.py lines 48-92: the two reference payments, the
service-charge totals, the per-month insurance accumulation over the
amortization rows, the interest total and the grand total.  `none` when
any of the two `monthly_payment` calls or the schedule generation raises. -/
def calculate_mortgage_costs (property_price down_payment_pct loan_amount : ℚ)
    (mortgage_years fixed_years : ℕ)
    (fixed_rate floating_rate built_up_area service_charge_rate
      home_insurance_pct life_insurance_pct : ℚ) : Option MortgageCosts :=
  match monthly_payment loan_amount fixed_rate (mortgage_years : ℚ),
        monthly_payment loan_amount floating_rate ((mortgage_years : ℚ) - (fixed_years : ℚ)),
        generate_amortization loan_amount fixed_years mortgage_years fixed_rate floating_rate with
  | some monthly_fixed, some monthly_floating, some rows =>
    let annual_service_charge := built_up_area * service_charge_rate
    let total_service_charge := annual_service_charge * (mortgage_years : ℚ)
    let home_insurance_total := (rows.map (fun _ => home_insurance_pct / 100 * property_price / 12)).sum
    let life_insurance_total := (rows.map (fun r => life_insurance_pct / 100 * r.balance / 12)).sum
    let total_interest := (rows.map Row.interest).sum
    let total_payment := loan_amount + total_interest + total_service_charge +
      home_insurance_total + life_insurance_total
    some ⟨monthly_fixed, monthly_floating, annual_service_charge, total_service_charge,
      total_payment, total_interest, home_insurance_total, life_insurance_total⟩
  | _, _, _ => none

/-- Parameter set of the buy-vs-rent simulation in
`show_buy_vs_rent` (src/components/comparison.py).  The fields
`annualServiceCharge`, `upfrontCost`, `monthlyFixedPayment` and
`monthlyFloatingPayment` stand for the values the function computes
before the year loop (`mortgage_costs["annual_service_charge"]`,
`calculate_upfront_costs(...)`, and the two `monthly_payment` calls). -/
structure CompParams where
  price : ℚ
  downPaymentPct : ℚ
  mortgageYears : ℕ
  fixedYears : ℕ
  fixedRate : ℚ
  floatingRate : ℚ
  monthlyRent : ℚ
  rentGrowth : ℚ
  appreciationRate : ℚ
  compareYears : ℕ
  investmentReturn : ℚ
  additionalOwnershipCosts : ℚ
  taxAdvantage : ℚ
  includeOpportunityCost : Bool
  homeInsurancePct : ℚ
  lifeInsurancePct : ℚ
  annualServiceCharge : ℚ
  upfrontCost : ℚ
  monthlyFixedPayment : ℚ
  monthlyFloatingPayment : ℚ
  deriving Repr

/-- `down_payment = (down_payment_pct / 100) * property_price`. -/
def downPayment (P : CompParams) : ℚ := P.downPaymentPct / 100 * P.price

/-- `loan_amount = property_price - down_payment`. -/
def loanAmount (P : CompParams) : ℚ := P.price - downPayment P

/-- `annual_home_insurance = (home_insurance_pct / 100) * property_price`. -/
def annualHomeInsurance (P : CompParams) : ℚ := P.homeInsurancePct / 100 * P.price

/-- `annual_life_insurance = (life_insurance_pct / 100) * loan_amount`. -/
def annualLifeInsurance (P : CompParams) : ℚ := P.lifeInsurancePct / 100 * loanAmount P

/-- The year's nominal mortgage outlay: fixed or floating monthly payment
times 12 depending on `year <= fixed_years`. -/
def annualMortgagePayment (P : CompParams) (year : ℕ) : ℚ :=
  (if year ≤ P.fixedYears then P.monthlyFixedPayment else P.monthlyFloatingPayment) * 12

/-- The year's monthly rate: fixed or floating rate over 1200 depending
on `year <= fixed_years`. -/
def annualMonthlyRate (P : CompParams) (year : ℕ) : ℚ :=
  (if year ≤ P.fixedYears then P.fixedRate else P.floatingRate) / 100 / 12

/-- Mutable loop state of the year-by-year simulation:
`current_rent`, `rent_total`, `buy_total`, `remaining_loan`,
`property_value`. -/
structure CompState where
  currentRent : ℚ
  rentTotal : ℚ
  buyTotal : ℚ
  remainingLoan : ℚ
  propertyValue : ℚ
  deriving Repr, DecidableEq

/-- The values recorded for one simulated year: the entries appended to
`rent_over_time`, `buy_costs_over_time`, `opportunity_cost_over_time`,
`buy_equity_over_time` and `net_position_over_time`, plus the property
value and the remaining loan used to derive them. -/
structure YearRec where
  year : ℕ
  propertyValue : ℚ
  cumulativeRent : ℚ
  cumulativeBuyCost : ℚ
  opportunityCost : ℚ
  remainingLoan : ℚ
  equity : ℚ
  netPosition : ℚ
  deriving Repr, DecidableEq

def dummyRec : YearRec := ⟨0, 0, 0, 0, 0, 0, 0, 0⟩

/-- The year's `remaining_loan` update: while `year <= mortgage_years`,
the estimated interest is `remaining_loan * monthly_rate * 12`, the
principal is the residual of the nominal annual payment, and
`remaining_loan = max(0, remaining_loan - annual_principal)`; after the
term, `remaining_loan = 0`. -/
def stepRemainingLoan (P : CompParams) (year : ℕ) (rl : ℚ) : ℚ :=
  if year ≤ P.mortgageYears
  then max 0 (rl - (annualMortgagePayment P year - rl * annualMonthlyRate P year * 12))
  else 0

/-- The year's buy cost apart from the additional-ownership-cost term:
the mortgage payment net of the tax savings
`annual_interest * tax_advantage / 100` (only while
`year <= mortgage_years`), plus the annual service charge, home
insurance, and — while the updated remaining loan is positive — life
insurance.  None of this depends on the appreciation rate. -/
def stepBaseCost (P : CompParams) (year : ℕ) (rl : ℚ) : ℚ :=
  (if year ≤ P.mortgageYears
   then annualMortgagePayment P year - rl * annualMonthlyRate P year * 12 * (P.taxAdvantage / 100)
   else 0) +
  P.annualServiceCharge + annualHomeInsurance P +
  (if 0 < stepRemainingLoan P year rl then annualLifeInsurance P else 0)

/-- `opportunity_cost`, recomputed fresh each year:
`down_payment * ((1 + investment_return / 100) ^ year - 1)` when
opportunity cost is included, else 0. -/
def opportunityCostAt (P : CompParams) (year : ℕ) : ℚ :=
  if P.includeOpportunityCost
  then downPayment P * ((1 + P.investmentReturn / 100) ^ year - 1)
  else 0

/-- One iteration of the `for year in range(1, compare_years + 1)` loop
of `show_buy_vs_rent` (src/components/comparison.py lines 137-214):
property value compounded from the original price, rent accumulation,
annual buy cost (`stepBaseCost` plus
`property_value * additional_ownership_costs / 100`), the optional
opportunity cost of the down payment, the equity
`property_value - remaining_loan`, and the net position
`equity - buy_total - opportunity_cost + down_payment`. -/
def compStep (P : CompParams) (year : ℕ) (st : CompState) : YearRec × CompState :=
  let property_value := P.price * (1 + P.appreciationRate / 100) ^ year
  let rent_total := st.rentTotal + st.currentRent * 12
  let current_rent := st.currentRent * (1 + P.rentGrowth / 100)
  let remaining_loan := stepRemainingLoan P year st.remainingLoan
  let annual_buy_cost := stepBaseCost P year st.remainingLoan +
    property_value * (P.additionalOwnershipCosts / 100)
  let opportunity_cost := opportunityCostAt P year
  let buy_total := st.buyTotal + annual_buy_cost
  let equity := property_value - remaining_loan
  let net_position := equity - buy_total - opportunity_cost + downPayment P
  (⟨year, property_value, rent_total, buy_total, opportunity_cost, remaining_loan, equity, net_position⟩,
   ⟨current_rent, rent_total, buy_total, remaining_loan, property_value⟩)

/-- Loop state before year 1: `current_rent = monthly_rent`,
`rent_total = 0`, `buy_total = upfront_cost - down_payment`,
`remaining_loan = loan_amount`, `property_value = property_price`. -/
def initState (P : CompParams) : CompState :=
  ⟨P.monthlyRent, 0, P.upfrontCost - downPayment P, loanAmount P, P.price⟩

/-- Runs `count` iterations of the year loop starting at `year`. -/
def compRun (P : CompParams) : ℕ → ℕ → CompState → List YearRec × CompState
  | 0, _, st => ([], st)
  | count + 1, year, st =>
    let step := compStep P year st
    let rest := compRun P count (year + 1) step.2
    (step.1 :: rest.1, rest.2)

/-- The whole simulation loop: years `1 .. compare_years`. -/
def compRunAll (P : CompParams) : List YearRec × CompState :=
  compRun P P.compareYears 1 (initState P)

/-- The year-indexed records of the comparison (rows of `comparison_df`). -/
def runComparison (P : CompParams) : List YearRec := (compRunAll P).1

/-- The `"Buy vs Rent Advantage"` column:
`Net Position - (-(Cumulative Rent))`. -/
def advantage (r : YearRec) : ℚ := r.netPosition + r.cumulativeRent

/-- The `while extended_year < 100` extension loop of the break-even
search (src/components/comparison.py lines 236-255), with the remaining
number of admissible iterations (`100 - extended_year`) as fuel:
each pass appreciates the property value, accrues a year of rent, grows
the rent, and stops at the first year where
`extended_property_value - buy_total > extended_rent_total`. -/
def extendLoop (a g buyTotal : ℚ) : ℕ → ℕ → ℚ → ℚ → ℚ → Option ℕ
  | 0, _, _, _, _ => none
  | fuel + 1, year, epv, ert, rent =>
    let year2 := year + 1
    let epv2 := epv * (1 + a / 100)
    let ert2 := ert + rent * 12
    let rent2 := rent * (1 + g / 100)
    if ert2 < epv2 - buyTotal then some year2
    else extendLoop a g buyTotal fuel year2 epv2 ert2 rent2

/-- Break-even detection of `show_buy_vs_rent`
(src/components/comparison.py lines 229-255): the first in-horizon year
whose buy-vs-rent advantage is positive, otherwise the year-by-year
extension starting from the loop's final property value, cumulative
rent and buy total, with `current_rent` recomputed as
`monthly_rent * (1 + rent_growth / 100) ** compare_years`;
`none` is the "no break-even found" outcome. -/
def breakEvenYear (P : CompParams) : Option ℕ :=
  match (runComparison P).find? (fun r => decide (0 < advantage r)) with
  | some r => some r.year
  | none => extendLoop P.appreciationRate P.rentGrowth (compRunAll P).2.buyTotal
      (100 - P.compareYears) P.compareYears (compRunAll P).2.propertyValue
      (compRunAll P).2.rentTotal
      (P.monthlyRent * (1 + P.rentGrowth / 100) ^ P.compareYears)

/-- The simulation loop's final `buy_total`. -/
def buyTotalFinal (P : CompParams) : ℚ := (compRunAll P).2.buyTotal

/-- The extension loop's crossover condition at extended year `y`,
in closed form: `extended_property_value - buy_total >
extended_rent_total`, where the extended property value at year `y` is
`price * (1 + appreciation/100)^y` and the extended cumulative rent is
`12 * monthly_rent * (1 + (1+g) + ... + (1+g)^(y-1))`. -/
def extCross (P : CompParams) (y : ℕ) : Prop :=
  12 * P.monthlyRent * geomSum (1 + P.rentGrowth / 100) y <
    P.price * (1 + P.appreciationRate / 100) ^ y - buyTotalFinal P

/-- Difference between the recorded net position and
`equity - cumulativeBuyCost - opportunityCost`. -/
def netGap (r : YearRec) : ℚ :=
  r.netPosition - (r.equity - r.cumulativeBuyCost - r.opportunityCost)

/-- Concrete parameter set with a nonzero down payment used to exhibit
the down-payment term in the recorded net position. -/
def exP4 : CompParams :=
  ⟨100, 20, 0, 0, 0, 0, 0, 0, 0, 1, 0, 0, 0, false, 0, 0, 0, 0, 0, 0⟩

/-- Concrete parameter set whose first simulated year already has a
positive buy-vs-rent advantage. -/
def exP5 : CompParams :=
  ⟨100, 0, 0, 0, 0, 0, 0, 0, 0, 1, 0, 0, 0, false, 0, 0, 0, 0, 0, 0⟩

/-- Concrete parameter set (two-year horizon, nonzero additional
ownership costs) for instantiating the appreciation monotonicity
theorem. -/
def exP9 : CompParams :=
  ⟨100, 0, 0, 0, 0, 0, 0, 0, 0, 2, 0, 1, 0, false, 0, 0, 0, 0, 0, 0⟩

/-! Basic facts about `geomSum`. -/

lemma geomSum_nonneg {x : ℚ} (hx : 0 ≤ x) (n : ℕ) : 0 ≤ geomSum x n := by
  induction n with
  | zero => simp [geomSum]
  | succ n ih =>
    have := pow_nonneg hx n
    simp only [geomSum]
    linarith

lemma one_le_geomSum_succ {x : ℚ} (hx : 1 ≤ x) (n : ℕ) : 1 ≤ geomSum x (n + 1) := by
  induction n with
  | zero => simp [geomSum]
  | succ n ih =>
    have : (0 : ℚ) ≤ x ^ (n + 1) := pow_nonneg (by linarith) _
    simp only [geomSum] at ih ⊢
    linarith

lemma geomSum_pos {x : ℚ} (hx : 1 ≤ x) {n : ℕ} (hn : 0 < n) : 0 < geomSum x n := by
  obtain ⟨m, rfl⟩ : ∃ m, n = m + 1 := ⟨n - 1, by omega⟩
  linarith [one_le_geomSum_succ hx m]

lemma geomSum_succ_left (x : ℚ) (n : ℕ) : geomSum x (n + 1) = 1 + x * geomSum x n := by
  induction n with
  | zero => simp [geomSum]
  | succ n ih =>
    have h3 : geomSum x n + x ^ n = 1 + x * geomSum x n := by
      rw [show geomSum x n + x ^ n = geomSum x (n + 1) from rfl, ih]
    rw [show geomSum x (n + 1 + 1) = geomSum x (n + 1) + x ^ (n + 1) from rfl, ih]
    linear_combination x * h3

lemma geomSum_mul_sub (x : ℚ) (n : ℕ) : (x - 1) * geomSum x n = x ^ n - 1 := by
  induction n with
  | zero => simp [geomSum]
  | succ n ih =>
    rw [show geomSum x (n + 1) = geomSum x n + x ^ n from rfl, mul_add, ih, pow_succ]
    ring

lemma geomSum_pow_mul (x : ℚ) (k n : ℕ) :
    x ^ k * geomSum x n = geomSum x (n + k) - geomSum x k := by
  induction n with
  | zero => simp [geomSum]
  | succ n ih =>
    rw [show geomSum x (n + 1) = geomSum x n + x ^ n from rfl, mul_add, ih,
      show n + 1 + k = (n + k) + 1 from by omega,
      show geomSum x ((n + k) + 1) = geomSum x (n + k) + x ^ (n + k) from rfl,
      pow_add]
    ring

lemma geomSum_cross (x : ℚ) (k n : ℕ) :
    x ^ k * geomSum x n - x ^ n * geomSum x k = geomSum x n - geomSum x k := by
  rw [geomSum_pow_mul, geomSum_pow_mul, Nat.add_comm k n]
  ring

lemma geomSum_lt {x : ℚ} (hx : 1 ≤ x) {k n : ℕ} (h : k < n) : geomSum x k < geomSum x n := by
  induction n with
  | zero => omega
  | succ n ih =>
    have hp : (0 : ℚ) < x ^ n := pow_pos (by linarith) n
    rcases Nat.lt_succ_iff_lt_or_eq.mp h with h2 | h2
    · have := ih h2
      simp only [geomSum]
      linarith
    · subst h2
      simp only [geomSum]
      linarith

lemma geomSum_one (n : ℕ) : geomSum 1 n = (n : ℚ) := by
  induction n with
  | zero => simp [geomSum]
  | succ n ih =>
    simp only [geomSum, ih, one_pow]
    push_cast
    ring

/-! Characterizations of `monthly_payment`. -/

/-- On a whole number `n > 0` of months and a nonnegative rate, the
annuity formula of `monthly_payment` equals
`principal * x^n / (1 + x + ... + x^(n-1))` with `x` the monthly growth
factor; this covers the zero-rate branch uniformly. -/
lemma monthly_payment_int (p r : ℚ) (n : ℕ) (hr : 0 ≤ r) (hn : 0 < n) :
    monthly_payment p r ((n : ℚ) / 12) =
      some (p * (1 + r / 100 / 12) ^ n / geomSum (1 + r / 100 / 12) n) := by
  have h12 : ((n : ℚ) / 12) * 12 = (n : ℚ) := div_mul_cancel₀ _ (by norm_num)
  rcases eq_or_lt_of_le hr with h0 | hpos
  · have hr0 : r = 0 := h0.symm
    subst hr0
    simp only [monthly_payment, h12]
    rw [if_pos (by norm_num)]
    rw [if_neg (Nat.cast_ne_zero.mpr hn.ne')]
    norm_num [geomSum_one]
  · have hmr : (0 : ℚ) < r / 100 / 12 := by positivity
    simp only [monthly_payment, h12]
    rw [if_neg hmr.ne']
    rw [Rat.num_natCast]
    set x := 1 + r / 100 / 12 with hxdef
    have hx1 : 1 < x := by rw [hxdef]; linarith
    have hxn : 1 < x ^ n := one_lt_pow₀ hx1 hn.ne'
    have hzp : x ^ (-(n : ℤ)) = (x ^ n)⁻¹ := by rw [zpow_neg, zpow_natCast]
    rw [hzp]
    have hinv : (x ^ n)⁻¹ < 1 := inv_lt_one_of_one_lt₀ hxn
    rw [if_neg (by linarith)]
    congr 1
    have hs : geomSum x n ≠ 0 := (geomSum_pos hx1.le hn).ne'
    have hkey : (x - 1) * geomSum x n = x ^ n - 1 := geomSum_mul_sub x n
    have hxne : (x ^ n : ℚ) ≠ 0 := by positivity
    have h1 : (1 : ℚ) - (x ^ n)⁻¹ = (x ^ n - 1) / x ^ n := by field_simp
    rw [h1, div_div_eq_mul_div, ← hkey, show r / 100 / 12 = x - 1 from by rw [hxdef]; ring]
    have hx1ne : x - 1 ≠ 0 := by linarith
    field_simp
    ring

/-- On whole years the same closed form, with `n = years * 12` months. -/
lemma monthly_payment_years (p r : ℚ) (m : ℕ) (hr : 0 ≤ r) (hm : 0 < m) :
    monthly_payment p r (m : ℚ) =
      some (p * (1 + r / 100 / 12) ^ (m * 12) / geomSum (1 + r / 100 / 12) (m * 12)) := by
  have h : (m : ℚ) = ((m * 12 : ℕ) : ℚ) / 12 := by push_cast; ring
  rw [h]
  exact monthly_payment_int p r (m * 12) hr (by omega)

/-- A zero-month term always divides by zero, whatever the rate. -/
lemma monthly_payment_zero_years (p r : ℚ) : monthly_payment p r 0 = none := by
  simp only [monthly_payment]
  by_cases h : r / 100 / 12 = 0
  · rw [if_pos h]
    norm_num
  · rw [if_neg h]
    norm_num

/-- C8: when the annual rate is 0 (with principal ≥ 0 and a positive
term), `monthly_payment` takes the special-cased zero-rate branch and
returns exactly `principal / (years * 12)`; in particular
`monthly_payment 120000 0 10 = 1000` exactly. -/
theorem zero_rate_payment (p y : ℚ) (hp : 0 ≤ p) (hy : 0 < y) :
    monthly_payment p 0 y = some (p / (y * 12)) := by
  simp only [monthly_payment]
  rw [if_pos (by norm_num)]
  rw [if_neg (by positivity)]

theorem zero_rate_payment_witness :
    (0 : ℚ) ≤ 120000 ∧ (0 : ℚ) < 10 ∧ monthly_payment 120000 0 10 = some 1000 :=
  ⟨by norm_num, by norm_num, by
    rw [zero_rate_payment 120000 10 (by norm_num) (by norm_num)]; norm_num⟩

/-- C10: with `fixedYears = mortgageYears` the recomputation of the
floating payment re-amortizes over a zero-month remaining term and
divides by zero, so `generate_amortization` raises (returns `none`) for
every loan amount and every pair of rates: its actual precondition is
the strict inequality `fixedYears < mortgageYears`. -/
theorem amortization_fails_at_fixed_eq_total (loan fixed_rate floating_rate : ℚ) (y : ℕ) :
    generate_amortization loan y y fixed_rate floating_rate = none := by
  simp only [generate_amortization]
  cases h : monthly_payment loan fixed_rate (y : ℚ) with
  | none => rfl
  | some mf =>
    simp [monthly_payment_zero_years]

/-- The zero-rate branch for any nonzero term, including negative ones. -/
lemma monthly_payment_zero_rate_ne (p y : ℚ) (hy : y ≠ 0) :
    monthly_payment p 0 y = some (p / (y * 12)) := by
  simp only [monthly_payment]
  rw [if_pos (by norm_num), if_neg (mul_ne_zero hy (by norm_num))]

/-- `generate_amortization` happily runs on `fixedYears > mortgageYears`. -/
lemma gen_ignores_fixed_gt : (generate_amortization 1000 2 1 0 0).isSome = true := by
  simp only [generate_amortization]
  rw [monthly_payment_zero_rate_ne 1000 ((1 : ℕ) : ℚ) (by norm_num)]
  simp only [Option.isSome]
  rw [monthly_payment_zero_rate_ne _ _ (by push_cast; norm_num)]

lemma zpow_ne_one_of_one_lt {x : ℚ} (hx : 1 < x) {m : ℤ} (hm : m ≠ 0) : x ^ m ≠ 1 := by
  rcases lt_or_gt_of_ne hm with hneg | hpos
  · have h1 : (1 : ℚ) < x ^ (-m) := one_lt_zpow₀ hx (by omega)
    have h2 : x ^ m = (x ^ (-m))⁻¹ := by rw [← zpow_neg, neg_neg]
    rw [h2]
    exact ne_of_lt (inv_lt_one_of_one_lt₀ h1)
  · exact (one_lt_zpow₀ hx hpos).ne'

/-- C6 (counterexample): `monthly_payment` returns a value — it reports
no invalid-input error — for a negative principal and for a negative
term, and `generate_amortization` does not reject
`fixedYears > mortgageYears`: at `(1000, 2, 1, 0, 0)` it produces a
schedule instead of rejecting the parameters before the loop. -/
theorem input_validation_cex :
    (monthly_payment (-100) 0 10).isSome = true ∧
    (monthly_payment 100 0 (-1)).isSome = true ∧
    (generate_amortization 1000 2 1 0 0).isSome = true := by
  refine ⟨?_, ?_, gen_ignores_fixed_gt⟩
  · rw [monthly_payment_zero_rate_ne (-100) 10 (by norm_num)]
    rfl
  · rw [monthly_payment_zero_rate_ne 100 (-1) (by norm_num)]
    rfl

/-- C6 (amended): neither `monthly_payment` nor `generate_amortization`
validates its inputs.  For any nonnegative rate, `monthly_payment`
fails (raises ZeroDivisionError) exactly when `termYears = 0` — a
negative term or a negative principal is answered with a (possibly
negative) payment, not an error — and `generate_amortization` runs its
fixed loop and returns a schedule even when
`fixedYears > mortgageYears`. -/
theorem no_input_validation :
    (∀ p r y : ℚ, 0 ≤ r → (monthly_payment p r y = none ↔ y = 0)) ∧
    (generate_amortization 1000 2 1 0 0).isSome = true := by
  constructor
  · intro p r y hr
    constructor
    · intro h
      by_contra hy
      have hy12 : y * 12 ≠ 0 := by
        intro h0
        rcases mul_eq_zero.mp h0 with h1 | h1
        · exact hy h1
        · norm_num at h1
      rcases eq_or_lt_of_le hr with h0 | hpos
      · have hr0 : r = 0 := h0.symm
        subst hr0
        simp only [monthly_payment] at h
        rw [if_pos (by norm_num), if_neg hy12] at h
        exact Option.noConfusion h
      · have hmr : (0 : ℚ) < r / 100 / 12 := by positivity
        simp only [monthly_payment] at h
        rw [if_neg hmr.ne'] at h
        have hx1 : 1 < 1 + r / 100 / 12 := by linarith
        have hnum : (y * 12).num ≠ 0 := Rat.num_ne_zero.mpr hy12
        have hne : (1 + r / 100 / 12) ^ (-(y * 12).num) ≠ 1 :=
          zpow_ne_one_of_one_lt hx1 (neg_ne_zero.mpr hnum)
        have hdenom : 1 - (1 + r / 100 / 12) ^ (-(y * 12).num) ≠ 0 := by
          intro h0
          exact hne (by linarith)
        rw [if_neg hdenom] at h
        exact Option.noConfusion h
    · intro h
      subst h
      exact monthly_payment_zero_years p r
  · exact gen_ignores_fixed_gt

theorem no_input_validation_witness : monthly_payment 100 5 0 = none :=
  (no_input_validation.1 100 5 0 (by norm_num)).mpr rfl

/-! Closed forms for the two amortization loops. -/

lemma fixedSteps_length (mr pay : ℚ) (k : ℕ) : ∀ (month : ℕ) (b : ℚ),
    (fixedSteps mr pay k month b).1.length = k := by
  induction k with
  | zero => intro month b; rfl
  | succ k ih =>
    intro month b
    simp only [fixedSteps, List.length_cons, ih]

lemma fixedSteps_snd (mr pay : ℚ) (k : ℕ) : ∀ (month : ℕ) (b : ℚ),
    (fixedSteps mr pay k month b).2 = (1 + mr) ^ k * b - pay * geomSum (1 + mr) k := by
  induction k with
  | zero => intro month b; simp [fixedSteps, geomSum]
  | succ k ih =>
    intro month b
    simp only [fixedSteps]
    rw [ih]
    rw [show geomSum (1 + mr) (k + 1) = geomSum (1 + mr) k + (1 + mr) ^ k from rfl]
    ring

lemma fixedSteps_getD (mr pay : ℚ) (k : ℕ) : ∀ (month : ℕ) (b : ℚ) (i : ℕ), i < k →
    ((fixedSteps mr pay k month b).1.getD i dummyRow).payment = pay ∧
    ((fixedSteps mr pay k month b).1.getD i dummyRow).balance =
      (1 + mr) ^ (i + 1) * b - pay * geomSum (1 + mr) (i + 1) := by
  induction k with
  | zero => intro month b i hi; omega
  | succ k ih =>
    intro month b i hi
    cases i with
    | zero =>
      refine ⟨rfl, ?_⟩
      show b - (pay - b * mr) = (1 + mr) ^ (0 + 1) * b - pay * geomSum (1 + mr) (0 + 1)
      rw [show geomSum (1 + mr) (0 + 1) = geomSum (1 + mr) 0 + (1 + mr) ^ 0 from rfl]
      simp [geomSum]
      ring
    | succ i =>
      have h := ih (month + 1) (b - (pay - b * mr)) i (by omega)
      simp only [fixedSteps, List.getD_cons_succ]
      refine ⟨h.1, ?_⟩
      rw [h.2, show geomSum (1 + mr) (i + 1 + 1) = geomSum (1 + mr) (i + 1) + (1 + mr) ^ (i + 1) from rfl]
      ring

lemma fixedSteps_sum (mr pay : ℚ) (k : ℕ) : ∀ (month : ℕ) (b : ℚ),
    sumPrincipal (fixedSteps mr pay k month b).1 = b - (fixedSteps mr pay k month b).2 := by
  induction k with
  | zero => intro month b; simp [fixedSteps, sumPrincipal]
  | succ k ih =>
    intro month b
    have h := ih (month + 1) (b - (pay - b * mr))
    simp only [fixedSteps, sumPrincipal, List.map_cons, List.sum_cons] at h ⊢
    rw [h]
    ring

/-- Main invariant of the floating loop: when the payment is the exact
re-amortization `A * (1+mr)^c` of the starting balance `A * geomSum (1+mr) c`
over the `c` remaining months, the loop never clamps, never stops early,
and the balance after the `i`-th row is
`A * (1+mr)^(i+1) * geomSum (1+mr) (c-i-1)` (zero exactly in the last row). -/
lemma floatSteps_spec (mr : ℚ) (hmr : 0 ≤ mr) (c : ℕ) :
    ∀ (A : ℚ) (month : ℕ) (pay bal : ℚ), 0 < A →
      pay = A * (1 + mr) ^ c → bal = A * geomSum (1 + mr) c →
      (floatSteps mr c month pay bal).length = c ∧
      ∀ i, i < c →
        ((floatSteps mr c month pay bal).getD i dummyRow).payment = pay ∧
        ((floatSteps mr c month pay bal).getD i dummyRow).balance
          = A * (1 + mr) ^ (i + 1) * geomSum (1 + mr) (c - i - 1) := by
  induction c with
  | zero =>
    intro A month pay bal hA hpay hbal
    exact ⟨rfl, fun i hi => absurd hi (by omega)⟩
  | succ d ih =>
    intro A month pay bal hA hpay hbal
    have hx0 : (0 : ℚ) ≤ 1 + mr := by linarith
    have hx1 : (1 : ℚ) ≤ 1 + mr := by linarith
    have e1 : bal - (pay - bal * mr) = A * ((1 + mr) * geomSum (1 + mr) d) := by
      rw [hpay, hbal, show geomSum (1 + mr) (d + 1) = geomSum (1 + mr) d + (1 + mr) ^ d from rfl]
      ring
    have hnn : 0 ≤ A * ((1 + mr) * geomSum (1 + mr) d) :=
      mul_nonneg hA.le (mul_nonneg hx0 (geomSum_nonneg hx0 d))
    have hclamp : ¬(bal - (pay - bal * mr) < 0) := by
      rw [e1]
      exact not_lt.mpr hnn
    simp only [floatSteps, if_neg hclamp]
    rcases Nat.eq_zero_or_pos d with hd | hd
    · subst hd
      have hz : bal - (pay - bal * mr) = 0 := by
        rw [e1]
        simp [geomSum]
      rw [if_pos hz.le]
      refine ⟨rfl, ?_⟩
      intro i hi
      obtain rfl : i = 0 := by omega
      refine ⟨rfl, ?_⟩
      show bal - (pay - bal * mr) = A * (1 + mr) ^ (0 + 1) * geomSum (1 + mr) (1 - 0 - 1)
      rw [hz]
      simp [geomSum]
    · have hpos2 : 0 < A * ((1 + mr) * geomSum (1 + mr) d) :=
        mul_pos hA (mul_pos (by linarith) (geomSum_pos hx1 hd))
      have hno : ¬(bal - (pay - bal * mr) ≤ 0) := by
        rw [e1]
        exact not_le.mpr hpos2
      rw [if_neg hno]
      obtain ⟨ihlen, ihget⟩ := ih (A * (1 + mr)) (month + 1) pay (bal - (pay - bal * mr)) (by positivity)
        (by rw [hpay]; ring) (by rw [e1]; ring)
      refine ⟨by simp [ihlen], ?_⟩
      intro i hi
      cases i with
      | zero =>
        refine ⟨rfl, ?_⟩
        show bal - (pay - bal * mr) = A * (1 + mr) ^ (0 + 1) * geomSum (1 + mr) d
        rw [e1]
        ring
      | succ j =>
        have h := ihget j (by omega)
        simp only [List.getD_cons_succ]
        refine ⟨h.1, ?_⟩
        rw [h.2, show d + 1 - (j + 1) - 1 = d - j - 1 from by omega]
        ring

lemma floatSteps_sum (mr : ℚ) (c : ℕ) : ∀ (month : ℕ) (pay bal : ℚ),
    sumPrincipal (floatSteps mr c month pay bal)
      = bal - lastBalance bal (floatSteps mr c month pay bal) := by
  induction c with
  | zero => intro month pay bal; simp [floatSteps, sumPrincipal, lastBalance]
  | succ d ih =>
    intro month pay bal
    simp only [floatSteps]
    by_cases h1 : bal - (pay - bal * mr) < 0
    · simp only [if_pos h1]
      rw [if_pos (by simp)]
      simp [sumPrincipal, lastBalance]
    · simp only [if_neg h1]
      by_cases h2 : bal - (pay - bal * mr) ≤ 0
      · rw [if_pos h2]
        simp [sumPrincipal, lastBalance]
      · rw [if_neg h2]
        have h := ih (month + 1) pay (bal - (pay - bal * mr))
        simp only [sumPrincipal, List.map_cons, List.sum_cons, lastBalance] at h ⊢
        rw [h]
        ring

lemma sumPrincipal_append (l1 l2 : List Row) :
    sumPrincipal (l1 ++ l2) = sumPrincipal l1 + sumPrincipal l2 := by
  simp [sumPrincipal]

lemma lastBalance_append (b : ℚ) (l1 l2 : List Row) :
    lastBalance b (l1 ++ l2) = lastBalance (lastBalance b l1) l2 := by
  induction l1 generalizing b with
  | nil => simp [lastBalance]
  | cons r l ih => simp [lastBalance, ih]

lemma lastBalance_getD (b : ℚ) (l : List Row) (h : l ≠ []) :
    lastBalance b l = (l.getD (l.length - 1) dummyRow).balance := by
  induction l generalizing b with
  | nil => exact absurd rfl h
  | cons r l ih =>
    cases l with
    | nil => simp [lastBalance]
    | cons r2 l2 =>
      rw [show lastBalance b (r :: r2 :: l2) = lastBalance r.balance (r2 :: l2) from rfl,
        ih r.balance (by simp),
        show (r :: r2 :: l2).length - 1 = ((r2 :: l2).length - 1) + 1 from by
          simp [List.length_cons],
        List.getD_cons_succ]

/-- Value of an intermediate balance `x^k * loan - payment * geomSum x k`
when the payment is the annuity payment over `n` periods. -/
lemma fixed_balance_value (loan x : ℚ) (k n : ℕ) (hSn : geomSum x n ≠ 0) :
    x ^ k * loan - loan * x ^ n / geomSum x n * geomSum x k
      = loan * (geomSum x n - geomSum x k) / geomSum x n := by
  rw [eq_div_iff hSn]
  have h := geomSum_cross x k n
  field_simp
  linear_combination loan * h

/-- Master structural lemma for `generate_amortization` on its actual
precondition (`loan > 0`, nonnegative rates, `fixedYears < mortgageYears`):
the schedule exists, covers exactly `mortgageYears * 12` rows, carries the
full-term fixed payment on every fixed-phase row and the re-amortized
floating payment on every floating-phase row, keeps all balances
nonnegative (strictly positive before the last row, zero in the last row),
and its principal portions sum to the loan. -/
lemma gen_amortization_master (loan fr flr : ℚ) (fy my : ℕ)
    (hl : 0 < loan) (hfr : 0 ≤ fr) (hflr : 0 ≤ flr) (hfm : fy < my) :
    ∃ (rows : List Row) (pf pfl : ℚ),
      generate_amortization loan fy my fr flr = some rows ∧
      monthly_payment loan fr (my : ℚ) = some pf ∧
      monthly_payment (fixedSteps (fr / 100 / 12) pf (fy * 12) 1 loan).2 flr
        ((my : ℚ) - (fy : ℚ)) = some pfl ∧
      rows.length = my * 12 ∧
      (∀ i, i < fy * 12 → (rows.getD i dummyRow).payment = pf) ∧
      (∀ i, fy * 12 ≤ i → i < my * 12 → (rows.getD i dummyRow).payment = pfl) ∧
      (∀ i, i + 1 < my * 12 → 0 < (rows.getD i dummyRow).balance) ∧
      (∀ i, i < my * 12 → 0 ≤ (rows.getD i dummyRow).balance) ∧
      (rows.getD (my * 12 - 1) dummyRow).balance = 0 ∧
      sumPrincipal rows = loan := by
  have hmy : 0 < my := by omega
  have hmrf : (0 : ℚ) ≤ fr / 100 / 12 := by positivity
  have hxf1 : (1 : ℚ) ≤ 1 + fr / 100 / 12 := by linarith
  have hpf := monthly_payment_years loan fr my hfr hmy
  set pf := loan * (1 + fr / 100 / 12) ^ (my * 12) / geomSum (1 + fr / 100 / 12) (my * 12)
    with hpfdef
  have hSn : 0 < geomSum (1 + fr / 100 / 12) (my * 12) := geomSum_pos hxf1 (by omega)
  have hval : ∀ k : ℕ,
      (1 + fr / 100 / 12) ^ k * loan - pf * geomSum (1 + fr / 100 / 12) k
        = loan * (geomSum (1 + fr / 100 / 12) (my * 12) - geomSum (1 + fr / 100 / 12) k)
          / geomSum (1 + fr / 100 / 12) (my * 12) := by
    intro k
    rw [hpfdef]
    exact fixed_balance_value loan (1 + fr / 100 / 12) k (my * 12) hSn.ne'
  have hvalpos : ∀ k : ℕ, k < my * 12 →
      0 < (1 + fr / 100 / 12) ^ k * loan - pf * geomSum (1 + fr / 100 / 12) k := by
    intro k hk
    rw [hval k]
    have h1 : geomSum (1 + fr / 100 / 12) k < geomSum (1 + fr / 100 / 12) (my * 12) :=
      geomSum_lt hxf1 hk
    exact div_pos (mul_pos hl (by linarith)) hSn
  have hsnd := fixedSteps_snd (fr / 100 / 12) pf (fy * 12) 1 loan
  set B := (fixedSteps (fr / 100 / 12) pf (fy * 12) 1 loan).2 with hBdef
  have hBpos : 0 < B := by
    rw [hsnd]
    exact hvalpos (fy * 12) (by omega)
  have hmr2 : (0 : ℚ) ≤ flr / 100 / 12 := by positivity
  have hx21 : (1 : ℚ) ≤ 1 + flr / 100 / 12 := by linarith
  have hm : 0 < my * 12 - fy * 12 := by omega
  have hS2 : 0 < geomSum (1 + flr / 100 / 12) (my * 12 - fy * 12) := geomSum_pos hx21 hm
  have hpfl := monthly_payment_int B flr (my * 12 - fy * 12) hflr hm
  set pfl := B * (1 + flr / 100 / 12) ^ (my * 12 - fy * 12)
      / geomSum (1 + flr / 100 / 12) (my * 12 - fy * 12) with hpfldef
  have hcast1 : ((((my * 12 : ℕ) : ℤ) - ((fy * 12 : ℕ) : ℤ) : ℤ) : ℚ) / 12
      = ((my * 12 - fy * 12 : ℕ) : ℚ) / 12 := by
    rw [Nat.cast_sub (by omega : fy * 12 ≤ my * 12)]
    push_cast
    ring
  have hcast2 : ((my * 12 - fy * 12 : ℕ) : ℚ) / 12 = (my : ℚ) - (fy : ℚ) := by
    rw [Nat.cast_sub (by omega : fy * 12 ≤ my * 12)]
    push_cast
    ring
  have hA : 0 < B / geomSum (1 + flr / 100 / 12) (my * 12 - fy * 12) := div_pos hBpos hS2
  obtain ⟨hflen, hfget⟩ := floatSteps_spec (flr / 100 / 12) hmr2 (my * 12 - fy * 12)
    (B / geomSum (1 + flr / 100 / 12) (my * 12 - fy * 12)) (fy * 12 + 1) pfl B hA
    (by rw [hpfldef]; ring)
    ((div_mul_cancel₀ B hS2.ne').symm)
  have hl1len := fixedSteps_length (fr / 100 / 12) pf (fy * 12) 1 loan
  refine ⟨(fixedSteps (fr / 100 / 12) pf (fy * 12) 1 loan).1 ++
    floatSteps (flr / 100 / 12) (my * 12 - fy * 12) (fy * 12 + 1) pfl B, pf, pfl,
    ?_, hpf, ?_, ?_, ?_, ?_, ?_, ?_, ?_, ?_⟩
  · -- the generator returns exactly these rows
    simp only [generate_amortization]
    rw [hpf]
    dsimp only
    rw [hcast1, ← hBdef, hpfl]
  · rw [hcast2] at hpfl
    exact hpfl
  · -- length
    rw [List.length_append, hl1len, hflen]
    omega
  · -- fixed-phase payments
    intro i hi
    rw [List.getD_append _ _ _ _ (by rw [hl1len]; exact hi)]
    exact (fixedSteps_getD (fr / 100 / 12) pf (fy * 12) 1 loan i hi).1
  · -- floating-phase payments
    intro i hi1 hi2
    rw [List.getD_append_right _ _ _ _ (by rw [hl1len]; exact hi1), hl1len]
    exact (hfget (i - fy * 12) (by omega)).1
  · -- strictly positive balances before the last row
    intro i hi
    by_cases hcase : i < fy * 12
    · rw [List.getD_append _ _ _ _ (by rw [hl1len]; exact hcase)]
      rw [(fixedSteps_getD (fr / 100 / 12) pf (fy * 12) 1 loan i hcase).2]
      exact hvalpos (i + 1) (by omega)
    · rw [List.getD_append_right _ _ _ _ (by rw [hl1len]; omega), hl1len]
      rw [(hfget (i - fy * 12) (by omega)).2]
      obtain ⟨t, ht⟩ : ∃ t, my * 12 - fy * 12 - (i - fy * 12) - 1 = t + 1 :=
        ⟨my * 12 - fy * 12 - (i - fy * 12) - 2, by omega⟩
      rw [ht]
      have hst : (0 : ℚ) < geomSum (1 + flr / 100 / 12) (t + 1) := geomSum_pos hx21 (by omega)
      have hxp : (0 : ℚ) < (1 + flr / 100 / 12) ^ (i - fy * 12 + 1) := pow_pos (by linarith) _
      positivity
  · -- nonnegative balances
    intro i hi
    by_cases hcase : i < fy * 12
    · rw [List.getD_append _ _ _ _ (by rw [hl1len]; exact hcase)]
      rw [(fixedSteps_getD (fr / 100 / 12) pf (fy * 12) 1 loan i hcase).2]
      exact (hvalpos (i + 1) (by omega)).le
    · rw [List.getD_append_right _ _ _ _ (by rw [hl1len]; omega), hl1len]
      rw [(hfget (i - fy * 12) (by omega)).2]
      have hst := geomSum_nonneg (by linarith : (0 : ℚ) ≤ 1 + flr / 100 / 12)
        (my * 12 - fy * 12 - (i - fy * 12) - 1)
      have hxp : (0 : ℚ) ≤ (1 + flr / 100 / 12) ^ (i - fy * 12 + 1) :=
        pow_nonneg (by linarith) _
      positivity
  · -- the final row balance is zero
    rw [List.getD_append_right _ _ _ _ (by rw [hl1len]; omega), hl1len]
    rw [(hfget (my * 12 - 1 - fy * 12) (by omega)).2]
    rw [show my * 12 - fy * 12 - (my * 12 - 1 - fy * 12) - 1 = 0 from by omega]
    simp [geomSum]
  · -- conservation of principal
    rw [sumPrincipal_append, fixedSteps_sum, floatSteps_sum, ← hBdef]
    have hne : floatSteps (flr / 100 / 12) (my * 12 - fy * 12) (fy * 12 + 1) pfl B ≠ [] := by
      intro hnil
      rw [hnil] at hflen
      simp at hflen
      omega
    have hlast : lastBalance B (floatSteps (flr / 100 / 12) (my * 12 - fy * 12)
        (fy * 12 + 1) pfl B) = 0 := by
      rw [lastBalance_getD B _ hne, hflen, (hfget (my * 12 - fy * 12 - 1) (by omega)).2,
        show my * 12 - fy * 12 - (my * 12 - fy * 12 - 1) - 1 = 0 from by omega]
      simp [geomSum]
    rw [hlast]
    ring

/-- C1 (counterexample): the input `(loan = 1000, fixedYears = 1,
mortgageYears = 1, rates 0)` satisfies the claimed validity condition
`loanAmount > 0, 0 ≤ fixedYears ≤ mortgageYears, rates ≥ 0`, yet
`generate_amortization` raises ZeroDivisionError (returns `none`) there,
so no schedule ending at zero balance is returned. -/
theorem amortization_totality_cex : generate_amortization 1000 1 1 0 0 = none := by
  simp only [generate_amortization]
  rw [monthly_payment_zero_rate_ne 1000 ((1 : ℕ) : ℚ) (by norm_num)]
  simp [monthly_payment_zero_years]

/-- C1 (amended): for every valid input with the STRICT inequality
`fixedYears < mortgageYears` (at `fixedYears = mortgageYears` the
function instead raises ZeroDivisionError, see C10), `loanAmount > 0`
and nonnegative rates, the schedule exists and is nonempty, its final
row has `remainingBalance` exactly 0 (in exact rational arithmetic), no
row has a negative balance, and no row is emitted after the balance
reaches zero: every row before the final one has a strictly positive
balance. -/
theorem amortization_converges (loan fr flr : ℚ) (fy my : ℕ)
    (hl : 0 < loan) (hfr : 0 ≤ fr) (hflr : 0 ≤ flr) (hfm : fy < my) :
    ∃ rows, generate_amortization loan fy my fr flr = some rows ∧
      rows ≠ [] ∧
      (rows.getD (rows.length - 1) dummyRow).balance = 0 ∧
      (∀ i, i < rows.length → 0 ≤ (rows.getD i dummyRow).balance) ∧
      (∀ i, i + 1 < rows.length → 0 < (rows.getD i dummyRow).balance) := by
  obtain ⟨rows, pf, pfl, hgen, hpfeq, hpfleq, hlen, hfix, hfloat, hpos, hnn, hzero, hsum⟩ :=
    gen_amortization_master loan fr flr fy my hl hfr hflr hfm
  refine ⟨rows, hgen, ?_, ?_, ?_, ?_⟩
  · intro hnil
    rw [hnil] at hlen
    simp at hlen
    omega
  · rw [hlen]
    exact hzero
  · intro i hi
    rw [hlen] at hi
    exact hnn i hi
  · intro i hi
    rw [hlen] at hi
    exact hpos i hi

theorem amortization_converges_witness :
    (0 : ℚ) < 120 ∧ (0 : ℚ) ≤ 0 ∧ 0 < 1 ∧
    (∃ rows, generate_amortization 120 0 1 0 0 = some rows ∧
      rows ≠ [] ∧
      (rows.getD (rows.length - 1) dummyRow).balance = 0 ∧
      (∀ i, i < rows.length → 0 ≤ (rows.getD i dummyRow).balance) ∧
      (∀ i, i + 1 < rows.length → 0 < (rows.getD i dummyRow).balance)) :=
  ⟨by norm_num, le_refl 0, by norm_num,
    amortization_converges 120 0 0 0 1 (by norm_num) (le_refl 0) (le_refl 0) (by norm_num)⟩

/-- C2: the fixed-phase payment is `monthly_payment` applied to the full
`loanAmount` over the FULL term `mortgageYears`; at the fixed→floating
transition the payment is recomputed as `monthly_payment` applied to
the balance remaining after the fixed phase over the REMAINING term
`mortgageYears - fixedYears` years at the floating rate; every
fixed-phase row carries the first payment and every floating-phase row
carries the recomputed payment (in exact arithmetic the final clamp
never fires, so this holds for the last row too). -/
theorem payment_recomputation (loan fr flr : ℚ) (fy my : ℕ)
    (hl : 0 < loan) (hfr : 0 ≤ fr) (hflr : 0 ≤ flr) (hfm : fy < my) :
    ∃ rows pf pfl,
      generate_amortization loan fy my fr flr = some rows ∧
      monthly_payment loan fr (my : ℚ) = some pf ∧
      monthly_payment (fixedSteps (fr / 100 / 12) pf (fy * 12) 1 loan).2 flr
        ((my : ℚ) - (fy : ℚ)) = some pfl ∧
      (∀ i, i < fy * 12 → (rows.getD i dummyRow).payment = pf) ∧
      (∀ i, fy * 12 ≤ i → i < my * 12 → (rows.getD i dummyRow).payment = pfl) := by
  obtain ⟨rows, pf, pfl, hgen, hpfeq, hpfleq, hlen, hfix, hfloat, hpos, hnn, hzero, hsum⟩ :=
    gen_amortization_master loan fr flr fy my hl hfr hflr hfm
  exact ⟨rows, pf, pfl, hgen, hpfeq, hpfleq, hfix, hfloat⟩

theorem payment_recomputation_witness :
    (0 : ℚ) < 2400 ∧ (0 : ℚ) ≤ 0 ∧ 1 < 2 ∧
    (∃ rows pf pfl,
      generate_amortization 2400 1 2 0 0 = some rows ∧
      monthly_payment 2400 0 ((2 : ℕ) : ℚ) = some pf ∧
      monthly_payment (fixedSteps ((0 : ℚ) / 100 / 12) pf (1 * 12) 1 2400).2 0
        (((2 : ℕ) : ℚ) - ((1 : ℕ) : ℚ)) = some pfl ∧
      (∀ i, i < 1 * 12 → (rows.getD i dummyRow).payment = pf) ∧
      (∀ i, 1 * 12 ≤ i → i < 2 * 12 → (rows.getD i dummyRow).payment = pfl)) :=
  ⟨by norm_num, le_refl 0, by norm_num,
    payment_recomputation 2400 0 0 1 2 (by norm_num) (le_refl 0) (le_refl 0) (by norm_num)⟩

/-- C3: for every valid input (`loanAmount > 0`,
`0 ≤ fixedYears < mortgageYears`, both rates ≥ 0) the principal portions
of the full schedule sum exactly to the original loan amount (exact in
rational arithmetic, as the claim states for exact arithmetic). -/
theorem principal_conservation (loan fr flr : ℚ) (fy my : ℕ)
    (hl : 0 < loan) (hfr : 0 ≤ fr) (hflr : 0 ≤ flr) (hfm : fy < my) :
    ∃ rows, generate_amortization loan fy my fr flr = some rows ∧
      sumPrincipal rows = loan := by
  obtain ⟨rows, pf, pfl, hgen, hpfeq, hpfleq, hlen, hfix, hfloat, hpos, hnn, hzero, hsum⟩ :=
    gen_amortization_master loan fr flr fy my hl hfr hflr hfm
  exact ⟨rows, hgen, hsum⟩

theorem principal_conservation_witness :
    (0 : ℚ) < 240 ∧ (0 : ℚ) ≤ 0 ∧ 0 < 1 ∧
    (∃ rows, generate_amortization 240 0 1 0 0 = some rows ∧ sumPrincipal rows = 240) :=
  ⟨by norm_num, le_refl 0, by norm_num,
    principal_conservation 240 0 0 0 1 (by norm_num) (le_refl 0) (le_refl 0) (by norm_num)⟩

/-- C7: whenever the schedule (and the two reference payments) are
defined, `calculate_mortgage_costs` returns exactly
`annualServiceCharge = builtUpArea * serviceChargeRate`,
`totalServiceCharge = annualServiceCharge * mortgageYears` (a flat
projection), `totalInterest` the sum of the interest portions over the
full monthly schedule, `totalHomeInsurance` the sum over the schedule
months of `(homeInsurancePct/100) * propertyPrice / 12`,
`totalLifeInsurance` the sum over the schedule months of
`(lifeInsurancePct/100) * remainingBalance / 12`, and
`totalPayment = loanAmount + totalInterest + totalServiceCharge +
totalHomeInsurance + totalLifeInsurance`. -/
theorem mortgage_costs_formulas (pp dpp la : ℚ) (my fy : ℕ)
    (fr flr bua scr hip lip mf mfl : ℚ) (rows : List Row)
    (h1 : monthly_payment la fr (my : ℚ) = some mf)
    (h2 : monthly_payment la flr ((my : ℚ) - (fy : ℚ)) = some mfl)
    (h3 : generate_amortization la fy my fr flr = some rows) :
    calculate_mortgage_costs pp dpp la my fy fr flr bua scr hip lip =
      some ⟨mf, mfl, bua * scr, bua * scr * (my : ℚ),
        la + (rows.map Row.interest).sum + bua * scr * (my : ℚ) +
          (rows.map (fun _ => hip / 100 * pp / 12)).sum +
          (rows.map (fun r => lip / 100 * r.balance / 12)).sum,
        (rows.map Row.interest).sum,
        (rows.map (fun _ => hip / 100 * pp / 12)).sum,
        (rows.map (fun r => lip / 100 * r.balance / 12)).sum⟩ := by
  simp only [calculate_mortgage_costs]
  rw [h1, h2, h3]

theorem mortgage_costs_formulas_witness :
    ∃ (rows : List Row) (mf mfl : ℚ),
      monthly_payment 120 0 ((1 : ℕ) : ℚ) = some mf ∧
      monthly_payment 120 0 (((1 : ℕ) : ℚ) - ((0 : ℕ) : ℚ)) = some mfl ∧
      generate_amortization 120 0 1 0 0 = some rows ∧
      calculate_mortgage_costs 1200 0 120 1 0 0 0 10 2 1 10 =
        some ⟨mf, mfl, 10 * 2, 10 * 2 * ((1 : ℕ) : ℚ),
          120 + (rows.map Row.interest).sum + 10 * 2 * ((1 : ℕ) : ℚ) +
            (rows.map (fun _ => (1 : ℚ) / 100 * 1200 / 12)).sum +
            (rows.map (fun r => (10 : ℚ) / 100 * r.balance / 12)).sum,
          (rows.map Row.interest).sum,
          (rows.map (fun _ => (1 : ℚ) / 100 * 1200 / 12)).sum,
          (rows.map (fun r => (10 : ℚ) / 100 * r.balance / 12)).sum⟩ := by
  obtain ⟨rows, pf, pfl, hgen, h4, h5, h6, h7, h8, h9, h10, h11, h12⟩ :=
    gen_amortization_master 120 0 0 0 1 (by norm_num) (le_refl 0) (le_refl 0) (by norm_num)
  have h1 := monthly_payment_zero_rate_ne 120 ((1 : ℕ) : ℚ) (by norm_num)
  have h2 := monthly_payment_zero_rate_ne 120 (((1 : ℕ) : ℚ) - ((0 : ℕ) : ℚ)) (by norm_num)
  exact ⟨rows, _, _, h1, h2, hgen,
    mortgage_costs_formulas 1200 0 120 1 0 0 0 10 2 1 10 _ _ rows h1 h2 hgen⟩

/-! Projections of one simulation step. -/

lemma compStep_fst_year (P : CompParams) (year : ℕ) (st : CompState) :
    (compStep P year st).1.year = year := rfl

lemma compStep_fst_propertyValue (P : CompParams) (year : ℕ) (st : CompState) :
    (compStep P year st).1.propertyValue = P.price * (1 + P.appreciationRate / 100) ^ year := rfl

lemma compStep_fst_equity (P : CompParams) (year : ℕ) (st : CompState) :
    (compStep P year st).1.equity
      = (compStep P year st).1.propertyValue - (compStep P year st).1.remainingLoan := rfl

lemma compStep_fst_net (P : CompParams) (year : ℕ) (st : CompState) :
    (compStep P year st).1.netPosition
      = (compStep P year st).1.equity - (compStep P year st).1.cumulativeBuyCost
        - (compStep P year st).1.opportunityCost + downPayment P := rfl

lemma compStep_fst_remainingLoan (P : CompParams) (year : ℕ) (st : CompState) :
    (compStep P year st).1.remainingLoan = stepRemainingLoan P year st.remainingLoan := rfl

lemma compStep_fst_buyTotal (P : CompParams) (year : ℕ) (st : CompState) :
    (compStep P year st).1.cumulativeBuyCost
      = st.buyTotal + (stepBaseCost P year st.remainingLoan +
          P.price * (1 + P.appreciationRate / 100) ^ year * (P.additionalOwnershipCosts / 100)) := rfl

lemma compStep_fst_opportunityCost (P : CompParams) (year : ℕ) (st : CompState) :
    (compStep P year st).1.opportunityCost = opportunityCostAt P year := rfl

lemma compStep_snd_currentRent (P : CompParams) (year : ℕ) (st : CompState) :
    (compStep P year st).2.currentRent = st.currentRent * (1 + P.rentGrowth / 100) := rfl

lemma compStep_snd_rentTotal (P : CompParams) (year : ℕ) (st : CompState) :
    (compStep P year st).2.rentTotal = st.rentTotal + st.currentRent * 12 := rfl

lemma compStep_snd_buyTotal (P : CompParams) (year : ℕ) (st : CompState) :
    (compStep P year st).2.buyTotal
      = st.buyTotal + (stepBaseCost P year st.remainingLoan +
          P.price * (1 + P.appreciationRate / 100) ^ year * (P.additionalOwnershipCosts / 100)) := rfl

lemma compStep_snd_remainingLoan (P : CompParams) (year : ℕ) (st : CompState) :
    (compStep P year st).2.remainingLoan = stepRemainingLoan P year st.remainingLoan := rfl

lemma compStep_snd_propertyValue (P : CompParams) (year : ℕ) (st : CompState) :
    (compStep P year st).2.propertyValue = P.price * (1 + P.appreciationRate / 100) ^ year := rfl

lemma compRun_length (P : CompParams) (k : ℕ) : ∀ (year : ℕ) (st : CompState),
    (compRun P k year st).1.length = k := by
  induction k with
  | zero => intro year st; rfl
  | succ k ih =>
    intro year st
    simp only [compRun, List.length_cons, ih]

/-- The record at index `i` of a run starting at `year` reports year
`year + i`, the property value compounded from the ORIGINAL price at
that year, equity = propertyValue - remainingLoan, and net position =
equity - cumulativeBuyCost - opportunityCost + downPayment. -/
lemma compRun_getD (P : CompParams) (k : ℕ) : ∀ (year : ℕ) (st : CompState) (i : ℕ), i < k →
    ((compRun P k year st).1.getD i dummyRec).year = year + i ∧
    ((compRun P k year st).1.getD i dummyRec).propertyValue
      = P.price * (1 + P.appreciationRate / 100) ^ (year + i) ∧
    ((compRun P k year st).1.getD i dummyRec).equity
      = ((compRun P k year st).1.getD i dummyRec).propertyValue
        - ((compRun P k year st).1.getD i dummyRec).remainingLoan ∧
    ((compRun P k year st).1.getD i dummyRec).netPosition
      = ((compRun P k year st).1.getD i dummyRec).equity
        - ((compRun P k year st).1.getD i dummyRec).cumulativeBuyCost
        - ((compRun P k year st).1.getD i dummyRec).opportunityCost + downPayment P := by
  induction k with
  | zero => intro year st i hi; omega
  | succ k ih =>
    intro year st i hi
    cases i with
    | zero =>
      simp only [compRun, List.getD_cons_zero]
      refine ⟨by simp [compStep_fst_year], ?_, compStep_fst_equity P year st,
        compStep_fst_net P year st⟩
      rw [compStep_fst_propertyValue, Nat.add_zero]
    | succ i =>
      have h := ih (year + 1) (compStep P year st).2 i (by omega)
      simp only [compRun, List.getD_cons_succ]
      refine ⟨?_, ?_, h.2.2.1, h.2.2.2⟩
      · rw [h.1]
        omega
      · rw [h.2.1, show year + 1 + i = year + (i + 1) from by omega]

/-- C4 (amended): in the buy-vs-rent simulation, for every year
`y = i + 1` of the horizon, the recorded property value equals
`price * (1 + appreciation/100)^y` compounded from the ORIGINAL price,
the recorded equity equals `propertyValue - remainingBalance`, and the
recorded net position equals
`equity - cumulativeOwnershipCost - opportunityCost + downPayment`:
the code adds the down payment back
(`net_position = equity - buy_total - opportunity_cost + down_payment`),
so the down-payment term also enters the recorded net position. -/
theorem net_position_formula (P : CompParams) (i : ℕ) (hi : i < P.compareYears) :
    ((runComparison P).getD i dummyRec).year = i + 1 ∧
    ((runComparison P).getD i dummyRec).propertyValue
      = P.price * (1 + P.appreciationRate / 100) ^ (i + 1) ∧
    ((runComparison P).getD i dummyRec).equity
      = ((runComparison P).getD i dummyRec).propertyValue
        - ((runComparison P).getD i dummyRec).remainingLoan ∧
    ((runComparison P).getD i dummyRec).netPosition
      = ((runComparison P).getD i dummyRec).equity
        - ((runComparison P).getD i dummyRec).cumulativeBuyCost
        - ((runComparison P).getD i dummyRec).opportunityCost
        + downPayment P := by
  have h := compRun_getD P P.compareYears 1 (initState P) i hi
  have h1 : 1 + i = i + 1 := by omega
  rw [h1] at h
  exact h

theorem net_position_formula_witness :
    0 < exP4.compareYears ∧
    (((runComparison exP4).getD 0 dummyRec).year = 0 + 1 ∧
     ((runComparison exP4).getD 0 dummyRec).propertyValue
       = exP4.price * (1 + exP4.appreciationRate / 100) ^ (0 + 1) ∧
     ((runComparison exP4).getD 0 dummyRec).equity
       = ((runComparison exP4).getD 0 dummyRec).propertyValue
         - ((runComparison exP4).getD 0 dummyRec).remainingLoan ∧
     ((runComparison exP4).getD 0 dummyRec).netPosition
       = ((runComparison exP4).getD 0 dummyRec).equity
         - ((runComparison exP4).getD 0 dummyRec).cumulativeBuyCost
         - ((runComparison exP4).getD 0 dummyRec).opportunityCost
         + downPayment exP4) :=
  ⟨by decide, net_position_formula exP4 0 (by decide)⟩

/-- C4 (counterexample): at a parameter set with a 20% down payment on
price 100 (down payment 20), the recorded net position exceeds
`equity - cumulativeBuyCost - opportunityCost` by exactly the down
payment 20, so the claim "no other term enters the net position" is
false on the code. -/
theorem net_position_cex :
    (runComparison exP4).map netGap = [20] ∧ downPayment exP4 = 20 := by
  constructor
  · norm_num [runComparison, compRunAll, compRun, compStep, initState, exP4, netGap,
      stepRemainingLoan, stepBaseCost, opportunityCostAt, annualMortgagePayment,
      annualMonthlyRate, annualHomeInsurance, annualLifeInsurance, downPayment, loanAmount]
  · norm_num [downPayment, exP4]

/-- Closed forms for the loop state after `k` simulated years. -/
lemma compRun_final (P : CompParams) (k : ℕ) : ∀ (year : ℕ) (st : CompState),
    (compRun P k year st).2.currentRent = st.currentRent * (1 + P.rentGrowth / 100) ^ k ∧
    (compRun P k year st).2.rentTotal
      = st.rentTotal + 12 * st.currentRent * geomSum (1 + P.rentGrowth / 100) k ∧
    (compRun P k year st).2.propertyValue
      = if k = 0 then st.propertyValue
        else P.price * (1 + P.appreciationRate / 100) ^ (year + k - 1) := by
  induction k with
  | zero => intro year st; simp [compRun, geomSum]
  | succ k ih =>
    intro year st
    have h := ih (year + 1) (compStep P year st).2
    simp only [compRun]
    refine ⟨?_, ?_, ?_⟩
    · rw [h.1, compStep_snd_currentRent, pow_succ]
      ring
    · rw [h.2.1, compStep_snd_rentTotal, compStep_snd_currentRent, geomSum_succ_left]
      ring
    · rcases Nat.eq_zero_or_pos k with hk | hk
      · subst hk
        rw [h.2.2, if_pos rfl, if_neg (by omega), compStep_snd_propertyValue,
          show year + 1 - 1 = year from by omega]
      · rw [h.2.2, if_neg (by omega), if_neg (by omega),
          show year + 1 + k - 1 = year + (k + 1) - 1 from by omega]

/-- `find?` returns the first element satisfying the predicate. -/
lemma find_first {α : Type} (p : α → Bool) (d : α) : ∀ (l : List α) (i : ℕ), i < l.length →
    p (l.getD i d) = true → (∀ j, j < i → p (l.getD j d) = false) →
    l.find? p = some (l.getD i d) := by
  intro l
  induction l with
  | nil => intro i hi; simp at hi
  | cons a t ih =>
    intro i hi hp hleast
    cases i with
    | zero =>
      rw [List.getD_cons_zero] at hp ⊢
      rw [List.find?_cons_of_pos _ hp]
    | succ i =>
      have ha : p a = false := hleast 0 (by omega)
      rw [List.getD_cons_succ]
      rw [List.find?_cons_of_neg _ (by simp [ha])]
      refine ih i (by simpa using hi) hp ?_
      intro j hj
      have h := hleast (j + 1) (by omega)
      rwa [List.getD_cons_succ] at h

/-- Characterization of the break-even extension loop when started from
the closed-form state (`property value = price * t^y0`, cumulative rent
`12 * rent * geomSum g y0`, current rent `rent * g^y0`): a returned
year is the first extended year in `(y0, y0 + fuel]` where the
crossover condition `extCross` holds, and `none` means the condition
fails throughout that range. -/
lemma extendLoop_spec (P : CompParams) (fuel : ℕ) : ∀ (y0 : ℕ),
    (∀ y, extendLoop P.appreciationRate P.rentGrowth (buyTotalFinal P) fuel y0
        (P.price * (1 + P.appreciationRate / 100) ^ y0)
        (12 * P.monthlyRent * geomSum (1 + P.rentGrowth / 100) y0)
        (P.monthlyRent * (1 + P.rentGrowth / 100) ^ y0) = some y →
      y0 < y ∧ y ≤ y0 + fuel ∧ extCross P y ∧ ∀ z, y0 < z → z < y → ¬ extCross P z) ∧
    (extendLoop P.appreciationRate P.rentGrowth (buyTotalFinal P) fuel y0
        (P.price * (1 + P.appreciationRate / 100) ^ y0)
        (12 * P.monthlyRent * geomSum (1 + P.rentGrowth / 100) y0)
        (P.monthlyRent * (1 + P.rentGrowth / 100) ^ y0) = none →
      ∀ z, y0 < z → z ≤ y0 + fuel → ¬ extCross P z) := by
  induction fuel with
  | zero =>
    intro y0
    constructor
    · intro y h
      exact absurd h (by simp [extendLoop])
    · intro h z hz1 hz2
      omega
  | succ fuel ih =>
    intro y0
    have e1 : P.price * (1 + P.appreciationRate / 100) ^ y0 * (1 + P.appreciationRate / 100)
        = P.price * (1 + P.appreciationRate / 100) ^ (y0 + 1) := by
      rw [pow_succ]
      ring
    have e2 : 12 * P.monthlyRent * geomSum (1 + P.rentGrowth / 100) y0
          + P.monthlyRent * (1 + P.rentGrowth / 100) ^ y0 * 12
        = 12 * P.monthlyRent * geomSum (1 + P.rentGrowth / 100) (y0 + 1) := by
      rw [show geomSum (1 + P.rentGrowth / 100) (y0 + 1)
        = geomSum (1 + P.rentGrowth / 100) y0 + (1 + P.rentGrowth / 100) ^ y0 from rfl]
      ring
    have e3 : P.monthlyRent * (1 + P.rentGrowth / 100) ^ y0 * (1 + P.rentGrowth / 100)
        = P.monthlyRent * (1 + P.rentGrowth / 100) ^ (y0 + 1) := by
      rw [pow_succ]
      ring
    simp only [extendLoop, e1, e2, e3]
    by_cases hc : 12 * P.monthlyRent * geomSum (1 + P.rentGrowth / 100) (y0 + 1)
        < P.price * (1 + P.appreciationRate / 100) ^ (y0 + 1) - buyTotalFinal P
    · rw [if_pos hc]
      constructor
      · intro y h
        injection h with h
        subst h
        refine ⟨by omega, by omega, hc, ?_⟩
        intro z hz1 hz2
        omega
      · intro h
        exact absurd h (by simp)
    · rw [if_neg hc]
      obtain ⟨ihs, ihn⟩ := ih (y0 + 1)
      constructor
      · intro y h
        obtain ⟨h1, h2, h3, h4⟩ := ihs y h
        refine ⟨by omega, by omega, h3, ?_⟩
        intro z hz1 hz2
        rcases eq_or_lt_of_le (show y0 + 1 ≤ z from by omega) with hz | hz
        · rw [← hz]
          exact hc
        · exact h4 z hz hz2
      · intro h z hz1 hz2
        rcases eq_or_lt_of_le (show y0 + 1 ≤ z from by omega) with hz | hz
        · rw [← hz]
          exact hc
        · exact ihn h z hz (by omega)

/-- C5: the comparison reports as break-even year the FIRST year, in
ascending scan order, whose buy-vs-rent advantage
`netPosition - (-(cumulativeRent))` is positive; when no in-horizon
year qualifies, it extends the simulation year by year (property keeps
appreciating, rent keeps growing, no further ownership costs) capped at
100 total years, reporting the first extended year whose crossover
condition holds, and reports the explicit "no break-even found" value
(`none`) — rather than failing — when the crossover never happens up to
the cap. -/
theorem break_even_detection (P : CompParams) :
    (∀ i, i < (runComparison P).length →
       0 < advantage ((runComparison P).getD i dummyRec) →
       (∀ j, j < i → ¬ 0 < advantage ((runComparison P).getD j dummyRec)) →
       breakEvenYear P = some ((runComparison P).getD i dummyRec).year) ∧
    ((∀ r ∈ runComparison P, ¬ 0 < advantage r) →
       (∀ y, breakEvenYear P = some y →
          P.compareYears < y ∧ y ≤ 100 ∧ extCross P y ∧
          ∀ z, P.compareYears < z → z < y → ¬ extCross P z) ∧
       (breakEvenYear P = none →
          ∀ z, P.compareYears < z → z ≤ 100 → ¬ extCross P z)) := by
  constructor
  · intro i hi hp hleast
    have hf := find_first (fun r => decide (0 < advantage r)) dummyRec (runComparison P) i hi
      (decide_eq_true hp) (fun j hj => decide_eq_false (hleast j hj))
    simp only [breakEvenYear, hf]
  · intro hnone
    have hf : (runComparison P).find? (fun r => decide (0 < advantage r)) = none := by
      rw [List.find?_eq_none]
      intro r hr
      simpa using hnone r hr
    have hfin := compRun_final P P.compareYears 1 (initState P)
    have hcr : (compRunAll P).2.rentTotal
        = 12 * P.monthlyRent * geomSum (1 + P.rentGrowth / 100) P.compareYears := by
      have h := hfin.2.1
      rw [show (initState P).rentTotal = 0 from rfl,
        show (initState P).currentRent = P.monthlyRent from rfl] at h
      simpa using h
    have hpv : (compRunAll P).2.propertyValue
        = P.price * (1 + P.appreciationRate / 100) ^ P.compareYears := by
      have h := hfin.2.2
      rcases Nat.eq_zero_or_pos P.compareYears with hN | hN
      · rw [show (compRunAll P).2 = (compRun P P.compareYears 1 (initState P)).2 from rfl, h,
          if_pos hN, hN]
        simp [initState]
      · rw [show (compRunAll P).2 = (compRun P P.compareYears 1 (initState P)).2 from rfl, h,
          if_neg (by omega), show 1 + P.compareYears - 1 = P.compareYears from by omega]
    obtain ⟨hs, hn⟩ := extendLoop_spec P (100 - P.compareYears) P.compareYears
    rw [show buyTotalFinal P = (compRunAll P).2.buyTotal from rfl] at hs hn
    rw [← hcr, ← hpv] at hs hn
    constructor
    · intro y h
      rw [show breakEvenYear P
          = extendLoop P.appreciationRate P.rentGrowth (compRunAll P).2.buyTotal
            (100 - P.compareYears) P.compareYears (compRunAll P).2.propertyValue
            (compRunAll P).2.rentTotal
            (P.monthlyRent * (1 + P.rentGrowth / 100) ^ P.compareYears) from by
        simp only [breakEvenYear, hf]] at h
      obtain ⟨h1, h2, h3, h4⟩ := hs y h
      exact ⟨h1, by omega, h3, h4⟩
    · intro h z hz1 hz2
      rw [show breakEvenYear P
          = extendLoop P.appreciationRate P.rentGrowth (compRunAll P).2.buyTotal
            (100 - P.compareYears) P.compareYears (compRunAll P).2.propertyValue
            (compRunAll P).2.rentTotal
            (P.monthlyRent * (1 + P.rentGrowth / 100) ^ P.compareYears) from by
        simp only [breakEvenYear, hf]] at h
      exact hn h z hz1 (by omega)

theorem break_even_detection_witness : breakEvenYear exP5 = some 1 := by
  have hlen : (runComparison exP5).length = 1 := compRun_length exP5 1 1 (initState exP5)
  have hadv : 0 < advantage ((runComparison exP5).getD 0 dummyRec) := by
    norm_num [runComparison, compRunAll, compRun, compStep, initState, exP5, advantage,
      stepRemainingLoan, stepBaseCost, opportunityCostAt, annualMortgagePayment,
      annualMonthlyRate, annualHomeInsurance, annualLifeInsurance, downPayment, loanAmount]
  have h := (break_even_detection exP5).1 0 (by rw [hlen]; omega) hadv
    (fun j hj => absurd hj (Nat.not_lt_zero j))
  rw [h]
  norm_num [runComparison, compRunAll, compRun, compStep, initState, exP5,
    stepRemainingLoan, stepBaseCost, opportunityCostAt, annualMortgagePayment,
    annualMonthlyRate, annualHomeInsurance, annualLifeInsurance, downPayment, loanAmount]

/-- For bases at least 1, the gap between powers widens with the
exponent. -/
lemma pow_sub_le_pow_sub {t1 t2 : ℚ} (h1 : 1 ≤ t1) (h12 : t1 ≤ t2) (j : ℕ) :
    t2 ^ j - t1 ^ j ≤ t2 ^ (j + 1) - t1 ^ (j + 1) := by
  have hd : t1 ^ j ≤ t2 ^ j := pow_le_pow_left₀ (by linarith) h12 j
  have h2 : (0 : ℚ) ≤ t1 ^ j := pow_nonneg (by linarith) j
  rw [pow_succ, pow_succ]
  nlinarith

set_option maxHeartbeats 1000000 in
/-- Comparative invariant of two simulation runs that differ only in the
appreciation rate `a1 ≤ a2`: starting from states with equal remaining
loans and a buy-total gap between `0` and
`c/100 * y * (price * t2^y - price * t1^y)` after `y` processed years,
every subsequent record of the `a2` run dominates the `a1` run in
property value, equity and net position (given the supported-range bound
`c * (y + k) ≤ 100`). -/
lemma compRun_appr (P : CompParams) (a1 a2 : ℚ)
    (h1 : 0 ≤ a1) (h12 : a1 ≤ a2) (hp : 0 ≤ P.price) (hc : 0 ≤ P.additionalOwnershipCosts) :
    ∀ (k y : ℕ) (st1 st2 : CompState),
      st1.remainingLoan = st2.remainingLoan →
      0 ≤ st2.buyTotal - st1.buyTotal →
      st2.buyTotal - st1.buyTotal
        ≤ P.additionalOwnershipCosts / 100 * ((y : ℚ) *
            (P.price * (1 + a2 / 100) ^ y - P.price * (1 + a1 / 100) ^ y)) →
      P.additionalOwnershipCosts * ((y : ℚ) + (k : ℚ)) ≤ 100 →
      ∀ i, i < k →
        ((compRun { P with appreciationRate := a1 } k (y + 1) st1).1.getD i dummyRec).propertyValue
          ≤ ((compRun { P with appreciationRate := a2 } k (y + 1) st2).1.getD i dummyRec).propertyValue ∧
        ((compRun { P with appreciationRate := a1 } k (y + 1) st1).1.getD i dummyRec).equity
          ≤ ((compRun { P with appreciationRate := a2 } k (y + 1) st2).1.getD i dummyRec).equity ∧
        ((compRun { P with appreciationRate := a1 } k (y + 1) st1).1.getD i dummyRec).netPosition
          ≤ ((compRun { P with appreciationRate := a2 } k (y + 1) st2).1.getD i dummyRec).netPosition := by
  have ht1 : (1 : ℚ) ≤ 1 + a1 / 100 := by
    have := div_nonneg h1 (by norm_num : (0 : ℚ) ≤ 100)
    linarith
  have ht12 : 1 + a1 / 100 ≤ 1 + a2 / 100 := by
    have : a1 / 100 ≤ a2 / 100 := by linarith
    linarith
  intro k
  induction k with
  | zero => intro y st1 st2 _ _ _ _ i hi; omega
  | succ k ih =>
    intro y st1 st2 hrl hge hle hcap i hi
    -- per-year gap facts at year y+1
    have hDy1 : 0 ≤ P.price * (1 + a2 / 100) ^ (y + 1) - P.price * (1 + a1 / 100) ^ (y + 1) := by
      have h := pow_le_pow_left (by linarith : (0 : ℚ) ≤ 1 + a1 / 100) ht12 (y + 1)
      nlinarith
    have hDmono : P.price * (1 + a2 / 100) ^ y - P.price * (1 + a1 / 100) ^ y
        ≤ P.price * (1 + a2 / 100) ^ (y + 1) - P.price * (1 + a1 / 100) ^ (y + 1) := by
      have h := pow_sub_le_pow_sub ht1 ht12 y
      nlinarith
    have hcy : P.additionalOwnershipCosts * ((y : ℚ) + 1) ≤ 100 := by
      have hk0 : (0 : ℚ) ≤ (k : ℚ) := Nat.cast_nonneg k
      push_cast at hcap
      nlinarith
    have hfac : 0 ≤ 1 - P.additionalOwnershipCosts / 100 * ((y : ℚ) + 1) := by linarith
    have hscale : P.additionalOwnershipCosts / 100 * ((y : ℚ) *
          (P.price * (1 + a2 / 100) ^ y - P.price * (1 + a1 / 100) ^ y))
        ≤ P.additionalOwnershipCosts / 100 * ((y : ℚ) *
          (P.price * (1 + a2 / 100) ^ (y + 1) - P.price * (1 + a1 / 100) ^ (y + 1))) := by
      have hy0 : (0 : ℚ) ≤ (y : ℚ) := Nat.cast_nonneg y
      have hcd : (0 : ℚ) ≤ P.additionalOwnershipCosts / 100 :=
        div_nonneg hc (by norm_num)
      have h2 := mul_le_mul_of_nonneg_left hDmono (mul_nonneg hcd hy0)
      nlinarith [h2]
    have hmulfac := mul_nonneg hDy1 hfac
    -- projections of the two steps
    have hpv1 : (compStep { P with appreciationRate := a1 } (y + 1) st1).1.propertyValue
        = P.price * (1 + a1 / 100) ^ (y + 1) := rfl
    have hpv2 : (compStep { P with appreciationRate := a2 } (y + 1) st2).1.propertyValue
        = P.price * (1 + a2 / 100) ^ (y + 1) := rfl
    have hrl1 : (compStep { P with appreciationRate := a1 } (y + 1) st1).1.remainingLoan
        = stepRemainingLoan P (y + 1) st1.remainingLoan := rfl
    have hrl2 : (compStep { P with appreciationRate := a2 } (y + 1) st2).1.remainingLoan
        = stepRemainingLoan P (y + 1) st2.remainingLoan := rfl
    have hbt1 : (compStep { P with appreciationRate := a1 } (y + 1) st1).1.cumulativeBuyCost
        = st1.buyTotal + (stepBaseCost P (y + 1) st1.remainingLoan +
            P.price * (1 + a1 / 100) ^ (y + 1) * (P.additionalOwnershipCosts / 100)) := rfl
    have hbt2 : (compStep { P with appreciationRate := a2 } (y + 1) st2).1.cumulativeBuyCost
        = st2.buyTotal + (stepBaseCost P (y + 1) st2.remainingLoan +
            P.price * (1 + a2 / 100) ^ (y + 1) * (P.additionalOwnershipCosts / 100)) := rfl
    have hop1 : (compStep { P with appreciationRate := a1 } (y + 1) st1).1.opportunityCost
        = opportunityCostAt P (y + 1) := rfl
    have hop2 : (compStep { P with appreciationRate := a2 } (y + 1) st2).1.opportunityCost
        = opportunityCostAt P (y + 1) := rfl
    have hdp1 : downPayment { P with appreciationRate := a1 } = downPayment P := rfl
    have hdp2 : downPayment { P with appreciationRate := a2 } = downPayment P := rfl
    cases i with
    | zero =>
      simp only [compRun, List.getD_cons_zero]
      refine ⟨?_, ?_, ?_⟩
      · rw [hpv1, hpv2]
        linarith
      · rw [compStep_fst_equity, compStep_fst_equity, hpv1, hpv2, hrl1, hrl2, hrl]
        linarith
      · rw [compStep_fst_net, compStep_fst_net, compStep_fst_equity, compStep_fst_equity,
          hpv1, hpv2, hrl1, hrl2, hrl, hbt1, hbt2, hrl, hop1, hop2, hdp1, hdp2]
        nlinarith
    | succ i =>
      simp only [compRun, List.getD_cons_succ]
      refine ih (y + 1) (compStep { P with appreciationRate := a1 } (y + 1) st1).2
        (compStep { P with appreciationRate := a2 } (y + 1) st2).2 ?_ ?_ ?_ ?_ i (by omega)
      · rw [compStep_snd_remainingLoan, compStep_snd_remainingLoan,
          show stepRemainingLoan { P with appreciationRate := a1 } (y + 1) st1.remainingLoan
            = stepRemainingLoan P (y + 1) st1.remainingLoan from rfl,
          show stepRemainingLoan { P with appreciationRate := a2 } (y + 1) st2.remainingLoan
            = stepRemainingLoan P (y + 1) st2.remainingLoan from rfl, hrl]
      · rw [compStep_snd_buyTotal, compStep_snd_buyTotal,
          show stepBaseCost { P with appreciationRate := a1 } (y + 1) st1.remainingLoan
            = stepBaseCost P (y + 1) st1.remainingLoan from rfl,
          show stepBaseCost { P with appreciationRate := a2 } (y + 1) st2.remainingLoan
            = stepBaseCost P (y + 1) st2.remainingLoan from rfl, hrl]
        nlinarith
      · rw [compStep_snd_buyTotal, compStep_snd_buyTotal,
          show stepBaseCost { P with appreciationRate := a1 } (y + 1) st1.remainingLoan
            = stepBaseCost P (y + 1) st1.remainingLoan from rfl,
          show stepBaseCost { P with appreciationRate := a2 } (y + 1) st2.remainingLoan
            = stepBaseCost P (y + 1) st2.remainingLoan from rfl, hrl]
        push_cast
        nlinarith
      · push_cast
        push_cast at hcap
        nlinarith

/-- C9: holding every other input fixed, raising the appreciation rate
from `a1` to `a2 ≥ a1` (both nonnegative, i.e. within the supported
slider range, and with the supported-range bound
`additionalOwnershipCosts * compareYears ≤ 100`, satisfied by the UI
ranges `additionalOwnershipCosts ≤ 2`, `compareYears ≤ 50`) never
decreases the recorded property value, the recorded equity (the code's
`final_property_value` is the final equity) or the recorded net
position, in any year of the horizon. -/
theorem appreciation_monotone (P : CompParams) (a1 a2 : ℚ) (i : ℕ)
    (h1 : 0 ≤ a1) (h12 : a1 ≤ a2) (hp : 0 ≤ P.price)
    (hc : 0 ≤ P.additionalOwnershipCosts)
    (hcap : P.additionalOwnershipCosts * (P.compareYears : ℚ) ≤ 100)
    (hi : i < P.compareYears) :
    ((runComparison { P with appreciationRate := a1 }).getD i dummyRec).propertyValue
      ≤ ((runComparison { P with appreciationRate := a2 }).getD i dummyRec).propertyValue ∧
    ((runComparison { P with appreciationRate := a1 }).getD i dummyRec).equity
      ≤ ((runComparison { P with appreciationRate := a2 }).getD i dummyRec).equity ∧
    ((runComparison { P with appreciationRate := a1 }).getD i dummyRec).netPosition
      ≤ ((runComparison { P with appreciationRate := a2 }).getD i dummyRec).netPosition := by
  have h := compRun_appr P a1 a2 h1 h12 hp hc P.compareYears 0
    (initState { P with appreciationRate := a1 })
    (initState { P with appreciationRate := a2 })
    rfl (by norm_num [initState, downPayment]) (by norm_num [initState, downPayment])
    (by push_cast; simpa using hcap) i hi
  exact h

theorem appreciation_monotone_witness :
    (0 : ℚ) ≤ 0 ∧ (0 : ℚ) ≤ 10 ∧ (0 : ℚ) ≤ exP9.price ∧
    (0 : ℚ) ≤ exP9.additionalOwnershipCosts ∧
    exP9.additionalOwnershipCosts * (exP9.compareYears : ℚ) ≤ 100 ∧ 1 < exP9.compareYears ∧
    (((runComparison { exP9 with appreciationRate := 0 }).getD 1 dummyRec).propertyValue
       ≤ ((runComparison { exP9 with appreciationRate := 10 }).getD 1 dummyRec).propertyValue ∧
     ((runComparison { exP9 with appreciationRate := 0 }).getD 1 dummyRec).equity
       ≤ ((runComparison { exP9 with appreciationRate := 10 }).getD 1 dummyRec).equity ∧
     ((runComparison { exP9 with appreciationRate := 0 }).getD 1 dummyRec).netPosition
       ≤ ((runComparison { exP9 with appreciationRate := 10 }).getD 1 dummyRec).netPosition) :=
  ⟨le_refl 0, by norm_num, by norm_num [exP9], by norm_num [exP9],
    by norm_num [exP9], by decide,
    appreciation_monotone exP9 0 10 1 (le_refl 0) (by norm_num) (by norm_num [exP9])
      (by norm_num [exP9]) (by norm_num [exP9]) (by decide)⟩

end MortgageCalc
